import Mathlib

/-!
# prefer-dual-stack-webhook: the admission decision pipeline

A shallow embedding of `main.go`: the mutation rule engine `executeWebhook`
and the HTTP handler `admissionHandler.Handle`, with the calls into
`encoding/json`, the review decoder and `net/http` made explicit.

Go strings and byte slices are both byte sequences that the program only
compares, concatenates and hands on, so both are modelled by `String`; a nil
byte slice is the empty string. Pointers are `Option`s.
-/

namespace Webhook

/-! ## Data model -/

/-- The patch instruction of `main.go` lines 30-35. `Value` is the Go
`interface{}`: `none` is the nil interface, `some s` the string it holds. -/
structure PatchOperation where
  Op : String
  Path : String
  From : String
  Value : Option String
  deriving DecidableEq

/-- The engine output of `main.go` lines 24-28. -/
structure Result where
  Allowed : Bool
  Msg : String
  PatchOps : List PatchOperation
  deriving DecidableEq

/-- The part of `corev1.ServiceSpec` the program reads. -/
structure ServiceSpec where
  IPFamilyPolicy : Option String
  deriving DecidableEq

/-- The part of `corev1.Service` the program reads. -/
structure Service where
  Spec : ServiceSpec
  deriving DecidableEq

/-- The embedded raw payload, `runtime.RawExtension`. -/
structure RawExtension where
  Raw : String
  deriving DecidableEq

/-- The fields of `admissionv1.AdmissionRequest` the program reads. -/
structure AdmissionRequest where
  UID : String
  Operation : String
  Object : RawExtension
  deriving DecidableEq

/-- The status carried by a response, `metav1.Status`, reduced to its message. -/
structure Status where
  Message : String
  deriving DecidableEq

/-- The fields of `admissionv1.AdmissionResponse` the program writes. -/
structure AdmissionResponse where
  UID : String
  Allowed : Bool
  Result : Option Status
  Patch : String
  PatchType : Option String
  deriving DecidableEq

/-- The review envelope, `admissionv1.AdmissionReview`. -/
structure AdmissionReview where
  Kind : String
  APIVersion : String
  Request : Option AdmissionRequest
  Response : Option AdmissionResponse
  deriving DecidableEq

/-- The constant `admissionv1.Create`. -/
def Create : String := "CREATE"

/-- The constant `admissionv1.PatchTypeJSONPatch`. -/
def PatchTypeJSONPatch : String := "JSONPatch"

/-! ## The mutation rule engine -/

/-- What one call of `executeWebhook` yields: the two Go return values and,
as a ghost field, the payloads handed to `json.Unmarshal` during the call. -/
structure Engine where
  result : Result
  err : Option String
  decoded : List String
  deriving DecidableEq

/-- The function `executeWebhook` of `main.go` lines 37-63. The parameter
`unmarshal` stands for `json.Unmarshal(raw, &service)`. -/
def executeWebhook (unmarshal : String → Except String Service)
    (r : AdmissionRequest) : Engine :=
  if r.Operation ≠ Create then
    { result := { Allowed := false, Msg := "Invalid operation: " ++ r.Operation, PatchOps := [] },
      err := none, decoded := [] }
  else
    match unmarshal r.Object.Raw with
    | .error err =>
      { result := { Allowed := false, Msg := err, PatchOps := [] },
        err := none, decoded := [r.Object.Raw] }
    | .ok service =>
      let operations : List PatchOperation :=
        if service.Spec.IPFamilyPolicy = none then
          [] ++ [{ Op := "add", Path := "/spec/ipFamilyPolicy", From := "",
                   Value := some "PreferDualStack" }]
        else []
      { result := { Allowed := true, Msg := "", PatchOps := operations },
        err := none, decoded := [r.Object.Raw] }

/-! ## The HTTP exchange -/

/-- The request header map, `http.Header`: canonical key to its values. -/
abbrev Header := List (String × List String)

/-- The method `Header.Get`: the first value stored under the key, else the
empty string. -/
def Header.Get (h : Header) (key : String) : String :=
  match h.find? (fun kv => kv.1 == key) with
  | some (_, v :: _) => v
  | _ => ""

/-- The parts of `http.Request` the handler reads. `Body` is what
`io.ReadAll(r.Body)` returns when it is called: the bytes, or the text of the
read error. `Path` is `r.URL.Path`. -/
structure Request where
  Method : String
  Header : Header
  Body : Except String String
  Path : String

/-- The state of an `http.ResponseWriter`: the header map, the status line
once it has been written, and the body bytes written so far. -/
structure ResponseWriter where
  header : List (String × String)
  status : Option Nat
  body : String
  deriving DecidableEq

/-- A fresh response writer: nothing set, nothing written. -/
def ResponseWriter.new : ResponseWriter := { header := [], status := none, body := "" }

/-- The call `w.Header().Set(key, value)`; the headers that go on the wire are
fixed once the status line is written. -/
def ResponseWriter.Set (w : ResponseWriter) (key value : String) : ResponseWriter :=
  match w.status with
  | some _ => w
  | none => { w with header := (key, value) :: w.header.filter (fun kv => kv.1 != key) }

/-- The call `w.WriteHeader(code)`: the first call fixes the status, a later
call is superfluous and changes nothing. -/
def ResponseWriter.WriteHeader (w : ResponseWriter) (code : Nat) : ResponseWriter :=
  match w.status with
  | some _ => w
  | none => { w with status := some code }

/-- The call `w.Write(b)`: writes the status line 200 first when none was
written, then appends the bytes to the body. -/
def ResponseWriter.Write (w : ResponseWriter) (b : String) : ResponseWriter :=
  let w := w.WriteHeader 200
  { w with body := w.body ++ b }

/-- The library function `http.Error(w, error, code)`: plain-text headers,
the status line, then the message followed by a newline. -/
def ResponseWriter.Error (w : ResponseWriter) (error : String) (code : Nat) : ResponseWriter :=
  let w := w.Set "Content-Type" "text/plain; charset=utf-8"
  let w := w.Set "X-Content-Type-Options" "nosniff"
  let w := w.WriteHeader code
  w.Write (error ++ "\n")

/-- The constant `http.StatusOK`. -/
def StatusOK : Nat := 200

/-- The constant `http.StatusBadRequest`. -/
def StatusBadRequest : Nat := 400

/-- The constant `http.StatusMethodNotAllowed`. -/
def StatusMethodNotAllowed : Nat := 405

/-- The constant `http.StatusInternalServerError`. -/
def StatusInternalServerError : Nat := 500

/-- The constant `http.MethodPost`. -/
def MethodPost : String := "POST"

/-- The library calls the handler makes besides writing the response, each
fallible as its Go signature says: the review decoder `h.decoder.Decode`,
`json.Unmarshal` into a `Service`, `json.Marshal` of the patch operations and
`json.Marshal` of the review. An error carries the text of `err.Error()`. -/
structure Env where
  decode : String → Except String AdmissionReview
  unmarshal : String → Except String Service
  marshalPatch : List PatchOperation → Except String String
  marshalReview : AdmissionReview → Except String String

/-- The calls the handler makes, in the order it makes them (ghost trace). -/
inductive Event where
  | readAll
  | decode (body : String)
  | executeWebhook (r : AdmissionRequest)
  | unmarshal (raw : String)
  | marshalPatch (ops : List PatchOperation)
  | marshalReview (review : AdmissionReview)
  | klogError (msg : String)
  | klogInfo (msg : String)
  | httpError (msg : String) (code : Nat)
  | writeHeader (code : Nat)
  | write (b : String)
  deriving DecidableEq

/-- One request/response exchange: the response writer and the trace. -/
structure Exchange where
  w : ResponseWriter
  trace : List Event
  deriving DecidableEq

/-- Record a call in the trace. -/
def Exchange.emit (x : Exchange) (e : Event) : Exchange :=
  { x with trace := x.trace ++ [e] }

/-- The call `http.Error(w, msg, code)` within an exchange. -/
def Exchange.Error (x : Exchange) (msg : String) (code : Nat) : Exchange :=
  { w := x.w.Error msg code, trace := x.trace ++ [Event.httpError msg code] }

/-- The call `w.WriteHeader(code)` within an exchange. -/
def Exchange.WriteHeader (x : Exchange) (code : Nat) : Exchange :=
  { w := x.w.WriteHeader code, trace := x.trace ++ [Event.writeHeader code] }

/-- The call `w.Write(b)` within an exchange. -/
def Exchange.Write (x : Exchange) (b : String) : Exchange :=
  { w := x.w.Write b, trace := x.trace ++ [Event.write b] }

/-- The assignment `review.Response = &response`. -/
def AdmissionReview.setResponse (review : AdmissionReview) (response : AdmissionResponse) :
    AdmissionReview :=
  { review with Response := some response }

/-- The verb `%t` of `fmt`. -/
def fmtBool (b : Bool) : String := if b then "true" else "false"

/-- The handler closure of `admissionHandler.Handle`, `main.go` lines 75-140,
run on one request. -/
def Handle (env : Env) (r : Request) : Exchange :=
  let x : Exchange := { w := ResponseWriter.new.Set "Content-Type" "application/json", trace := [] }
  if r.Method ≠ MethodPost then
    x.Error "invalid method only POST requests are allowed" StatusMethodNotAllowed
  else if r.Header.Get "Content-Type" ≠ "application/json" then
    x.Error "only content type \x27application/json\x27 is supported" StatusBadRequest
  else
    let x := x.emit Event.readAll
    match r.Body with
    | .error err => x.Error ("could not read request body: " ++ err) StatusBadRequest
    | .ok body =>
      let x := x.emit (Event.decode body)
      match env.decode body with
      | .error err => x.Error ("could not deserialize request: " ++ err) StatusBadRequest
      | .ok review =>
        match review.Request with
        | none => x.Error "malformed admission review: request is nil" StatusBadRequest
        | some request =>
          let x := x.emit (Event.executeWebhook request)
          let out := executeWebhook env.unmarshal request
          let x : Exchange := { x with trace := x.trace ++ out.decoded.map Event.unmarshal }
          match out.err with
          | some err => (x.emit (Event.klogError err)).WriteHeader StatusInternalServerError
          | none =>
            let result := out.result
            let response : AdmissionResponse :=
              { UID := request.UID, Allowed := result.Allowed,
                Result := some { Message := result.Msg }, Patch := "", PatchType := none }
            let xr : Exchange × AdmissionResponse :=
              if result.PatchOps.length > 0 then
                let x := x.emit (Event.marshalPatch result.PatchOps)
                let xb : Exchange × String :=
                  match env.marshalPatch result.PatchOps with
                  | .error err =>
                    ((x.emit (Event.klogError err)).Error
                      ("could not marshal JSON patch: " ++ err) StatusInternalServerError, "")
                  | .ok patchBytes => (x, patchBytes)
                (xb.1, { response with PatchType := some PatchTypeJSONPatch, Patch := xb.2 })
              else (x, response)
            let x := xr.1
            let review : AdmissionReview := review.setResponse xr.2
            let x := x.emit (Event.marshalReview review)
            match env.marshalReview review with
            | .error err =>
              (x.emit (Event.klogError err)).Error
                ("could not marshal response: " ++ err) StatusInternalServerError
            | .ok res =>
              let x := x.emit (Event.klogInfo ("Webhook [" ++ r.Path ++ " - " ++ request.Operation
                ++ "] - Allowed: " ++ fmtBool result.Allowed))
              (x.WriteHeader StatusOK).Write res

/-! ## Concrete inputs used by the witnesses -/

/-- A request to create a Service whose payload is the empty JSON object. -/
def createEmpty : AdmissionRequest :=
  { UID := "uid-1", Operation := "CREATE", Object := { Raw := "\x7b\x7d" } }

/-- A request to update a Service. -/
def updateEmpty : AdmissionRequest :=
  { UID := "uid-2", Operation := "UPDATE", Object := { Raw := "\x7b\x7d" } }

/-- A decoder outcome: every payload is a Service without the policy field. -/
def unmarshalUnset : String → Except String Service :=
  fun _ => .ok { Spec := { IPFamilyPolicy := none } }

/-- A decoder outcome: every payload is a Service with the policy `SingleStack`. -/
def unmarshalSingle : String → Except String Service :=
  fun _ => .ok { Spec := { IPFamilyPolicy := some "SingleStack" } }

/-- A decoder outcome: every payload is rejected. -/
def unmarshalFails : String → Except String Service :=
  fun _ => .error "unexpected end of JSON input"

/-- A request that passes the five checks. -/
def postJSON (body : String) : Request :=
  { Method := "POST", Header := [("Content-Type", ["application/json"])],
    Body := .ok body, Path := "/mutate/services" }

/-- A review carrying the request `createEmpty`. -/
def reviewCreate : AdmissionReview :=
  { Kind := "AdmissionReview", APIVersion := "admission.k8s.io/v1",
    Request := some createEmpty, Response := none }

/-- An environment: every body decodes to `reviewCreate`, the object fails to
decode as a Service, and both serializers succeed with fixed texts. -/
def envMalformed : Env :=
  { decode := fun _ => .ok reviewCreate,
    unmarshal := unmarshalFails,
    marshalPatch := fun _ => .ok "[]",
    marshalReview := fun _ => .ok "envelope" }

/-- A GET request carrying a JSON body. -/
def getJSON : Request :=
  { Method := "GET", Header := [("Content-Type", ["application/json"])],
    Body := .ok "body", Path := "/mutate/services" }

/-- A POST request whose content type is not JSON. -/
def postText : Request :=
  { Method := "POST", Header := [("Content-Type", ["text/plain"])],
    Body := .ok "body", Path := "/mutate/services" }

/-- A POST request whose body cannot be read. -/
def postUnreadable : Request :=
  { Method := "POST", Header := [("Content-Type", ["application/json"])],
    Body := .error "unexpected EOF", Path := "/mutate/services" }

/-- An environment whose review decoder rejects every body. -/
def envUndecodable : Env :=
  { decode := fun _ => .error "couldn\x27t get version/kind; json parse error",
    unmarshal := unmarshalUnset,
    marshalPatch := fun _ => .ok "[]",
    marshalReview := fun _ => .ok "envelope" }

/-- An environment whose review decoder yields a review without a request. -/
def envNilRequest : Env :=
  { decode := fun _ => .ok { Kind := "AdmissionReview", APIVersion := "admission.k8s.io/v1",
                             Request := none, Response := none },
    unmarshal := unmarshalUnset,
    marshalPatch := fun _ => .ok "[]",
    marshalReview := fun _ => .ok "envelope" }

/-- An environment in which the object decodes to a Service without the
policy field and the serialization of the patch operations fails. -/
def envPatchFails : Env :=
  { decode := fun _ => .ok reviewCreate,
    unmarshal := unmarshalUnset,
    marshalPatch := fun _ => .error "unsupported value",
    marshalReview := fun _ => .ok "envelope" }

/-! ## The wire format of the patch: `json.Marshal` on `[]PatchOperation` -/

/-- A lower-case hexadecimal digit. -/
def hexDigit (n : Nat) : Char :=
  if n < 10 then Char.ofNat (48 + n) else Char.ofNat (87 + n)

/-- The text `encoding/json` writes for one character inside a string, HTML
escaping on as `json.Marshal` has it. -/
def escapeChar (c : Char) : String :=
  if c = Char.ofNat 34 then "\\\""
  else if c = Char.ofNat 92 then "\\\\"
  else if c = Char.ofNat 8 then "\\b"
  else if c = Char.ofNat 12 then "\\f"
  else if c = Char.ofNat 10 then "\\n"
  else if c = Char.ofNat 13 then "\\r"
  else if c = Char.ofNat 9 then "\\t"
  else if c.toNat < 32 ∨ c = Char.ofNat 60 ∨ c = Char.ofNat 62 ∨ c = Char.ofNat 38 then
    "\\u00" ++ String.singleton (hexDigit (c.toNat / 16)) ++ String.singleton (hexDigit (c.toNat % 16))
  else if c.toNat = 8232 then "\\u2028"
  else if c.toNat = 8233 then "\\u2029"
  else String.singleton c

/-- A Go string as a JSON string literal. -/
def quote (s : String) : String :=
  "\"" ++ String.join (s.data.map escapeChar) ++ "\""

/-- One struct field as `encoding/json` sees it: the key of its `json` tag,
whether the tag carries `omitempty`, whether the value is the empty value of
its type, and the JSON text of the value. -/
structure Field where
  key : String
  omitempty : Bool
  empty : Bool
  text : String

/-- The fields of `PatchOperation` with their tags, `main.go` lines 31-34:
`op`, `path` and `from` are plain, only `value` is tagged `omitempty`. An
interface value is empty when it is nil. -/
def PatchOperation.fields (p : PatchOperation) : List Field :=
  [ { key := "op", omitempty := false, empty := p.Op = "", text := quote p.Op },
    { key := "path", omitempty := false, empty := p.Path = "", text := quote p.Path },
    { key := "from", omitempty := false, empty := p.From = "", text := quote p.From },
    { key := "value", omitempty := true, empty := p.Value = none,
      text := match p.Value with
        | none => "null"
        | some v => quote v } ]

/-- A struct as a JSON object: the fields in declaration order, a field left
out exactly when it is tagged `omitempty` and empty. -/
def marshalStruct (fields : List Field) : String :=
  "\x7b" ++ ",".intercalate
    ((fields.filter (fun f => !(f.omitempty && f.empty))).map (fun f => quote f.key ++ ":" ++ f.text))
    ++ "\x7d"

/-- The call `json.Marshal(result.PatchOps)` on a sequence of patch operations
whose values are strings: a nil slice is `null`, any other a JSON array. -/
def jsonMarshal (ops : List PatchOperation) : String :=
  match ops with
  | [] => "null"
  | _ => "[" ++ ",".intercalate (ops.map (fun p => marshalStruct p.fields)) ++ "]"

/-- An environment whose patch serializer is `jsonMarshal`; the object decodes
to a Service without the policy field. -/
def envJSON : Env :=
  { decode := fun _ => .ok reviewCreate,
    unmarshal := unmarshalUnset,
    marshalPatch := fun ops => .ok (jsonMarshal ops),
    marshalReview := fun _ => .ok "envelope" }

/-! ## Applying the emitted patch: JSON documents, RFC 6901 and RFC 6902

The patch is applied by the caller of the webhook, not by `main.go`. The
definitions below model what the claim on idempotence refers to: a parsed JSON
document, the way `json.Unmarshal` fills `Service.Spec.IPFamilyPolicy` from
it, and the `add` operation of JSON Patch. An object keeps its members in
document order, repeated names included.
-/

/-- A parsed JSON document. -/
inductive JSON where
  | null
  | bool (b : Bool)
  | num (lit : String)
  | str (s : String)
  | arr (items : List JSON)
  | obj (members : List (String × JSON))

/-- The value of the member `key` of an object, if it has one. -/
def member (key : String) : List (String × JSON) → Option JSON
  | [] => none
  | (k, v) :: rest => if k = key then some v else member key rest

/-- The object with member `key` set to `v`: replaced in place when present,
appended otherwise. -/
def setMember (key : String) (v : JSON) : List (String × JSON) → List (String × JSON)
  | [] => [(key, v)]
  | (k, w) :: rest => if k = key then (k, v) :: rest else (k, w) :: setMember key v rest

/-- The parts of `json.Unmarshal(raw, &service)` that lie outside this
program: `parse` is the grammar of `encoding/json`, giving the document or the
text of the syntax error; `otherService` and `otherSpec` give, for a member
that does not bind to `Service.Spec` respectively to
`ServiceSpec.IPFamilyPolicy`, the text of the type error its decoding into
the other fields of `corev1.Service` respectively `corev1.ServiceSpec` raises,
if any (a member that binds to no field is ignored); `mismatch` is the text
of the type error for a value that does not fit the named field. -/
structure JSONLib where
  parse : String → Except String JSON
  otherService : String → JSON → Option String
  otherSpec : String → JSON → Option String
  mismatch : String → JSON → String

/-- The case folding of `encoding/json` on the runes that fold to an ASCII
letter: the letters themselves, the long s and the Kelvin sign. -/
def foldRune (c : Char) : Char :=
  if c = Char.ofNat 383 then 's'
  else if c = Char.ofNat 8490 then 'k'
  else c.toLower

/-- Whether the member name `key` binds to the struct field tagged `field`:
`encoding/json` compares the names case-insensitively. -/
def matchesField (field key : String) : Bool :=
  key.data.map foldRune == field.data.map foldRune

/-- The object loop of `encoding/json` seen from one field: the members are
decoded in document order, every member that binds to `field` is decoded into
the value by `bind`, every other member by `other`. A type error is saved and
the call returns the first one saved; the struct is not used afterwards, which
is what stopping at the first error yields. -/
def decodeMembers {σ : Type} (field : String) (bind : JSON → σ → Except String σ)
    (other : String → JSON → Option String) : List (String × JSON) → σ → Except String σ
  | [], st => .ok st
  | (k, v) :: rest, st =>
    if matchesField field k then
      match bind v st with
      | .ok st1 => decodeMembers field bind other rest st1
      | .error e => .error e
    else
      match other k v with
      | some e => .error e
      | none => decodeMembers field bind other rest st

/-- Decoding into the field `IPFamilyPolicy *IPFamilyPolicy`, a pointer to a
string type: `null` sets it to nil, a string sets it, anything else is a type
error. -/
def decodePolicy (lib : JSONLib) (v : JSON) (spec : ServiceSpec) : Except String ServiceSpec :=
  match v with
  | .null => .ok { spec with IPFamilyPolicy := none }
  | .str s => .ok { spec with IPFamilyPolicy := some s }
  | _ => .error (lib.mismatch "spec.ipFamilyPolicy" v)

/-- Decoding into the field `Spec ServiceSpec`: `null` leaves the struct as it
is, an object is decoded member by member into it, anything else is a type
error. -/
def decodeSpec (lib : JSONLib) (v : JSON) (service : Service) : Except String Service :=
  match v with
  | .null => .ok service
  | .obj members =>
    match decodeMembers "ipFamilyPolicy" (decodePolicy lib) lib.otherSpec members service.Spec with
    | .ok spec => .ok { service with Spec := spec }
    | .error e => .error e
  | _ => .error (lib.mismatch "spec" v)

/-- Decoding a document into a zero `Service`: `null` leaves the struct zero,
an object is decoded member by member, anything else is a type error. -/
def decodeService (lib : JSONLib) (doc : JSON) : Except String Service :=
  match doc with
  | .null => .ok { Spec := { IPFamilyPolicy := none } }
  | .obj members =>
    decodeMembers "spec" (decodeSpec lib) lib.otherService members
      { Spec := { IPFamilyPolicy := none } }
  | _ => .error (lib.mismatch "" doc)

/-- The call `json.Unmarshal(raw, &service)`: a syntax error when the bytes
are not a document, else the typed decode. -/
def unmarshalJSON (lib : JSONLib) (raw : String) : Except String Service :=
  match lib.parse raw with
  | .error e => .error e
  | .ok doc => decodeService lib doc

/-- Whether at most one member binds to the struct field tagged `field` and
that member carries the name exactly. -/
def bindsOnce (field : String) (members : List (String × JSON)) : Bool :=
  decide ((members.filter (fun kv => matchesField field kv.1)).length ≤ 1) &&
    members.all (fun kv => !matchesField field kv.1 || kv.1 == field)

/-- The reference tokens between the slashes of a JSON pointer; `cur` holds
the token being read, reversed. -/
def splitSlash : List Char → List Char → List (List Char)
  | cur, [] => [cur.reverse]
  | cur, c :: cs => if c = '/' then cur.reverse :: splitSlash [] cs else splitSlash (c :: cur) cs

/-- The escapes of RFC 6901: `~1` is a slash, `~0` a tilde. -/
def unescapeToken : List Char → List Char
  | '~' :: '1' :: cs => '/' :: unescapeToken cs
  | '~' :: '0' :: cs => '~' :: unescapeToken cs
  | c :: cs => c :: unescapeToken cs
  | [] => []

/-- The reference tokens of a JSON pointer (RFC 6901): the empty pointer is
the whole document, any other pointer starts with a slash. -/
def pointerTokens (path : String) : Option (List String) :=
  match path.data with
  | [] => some []
  | '/' :: cs => some ((splitSlash [] cs).map (fun t => String.mk (unescapeToken t)))
  | _ => none

/-- An array index of RFC 6901: decimal digits without a leading zero. -/
def parseIndex (token : String) : Option Nat :=
  match token.data with
  | [] => none
  | ['0'] => some 0
  | '0' :: _ => none
  | cs => if cs.all Char.isDigit then some (cs.foldl (fun n c => 10 * n + (c.toNat - 48)) 0) else none

/-- The list with `v` inserted before position `n`, when `n` is at most its
length. -/
def insertAt (v : JSON) : Nat → List JSON → Option (List JSON)
  | 0, items => some (v :: items)
  | _ + 1, [] => none
  | n + 1, item :: items => (insertAt v n items).map (fun l => item :: l)

/-- The list with the item at position `n` replaced by `f item`, when there is
one and `f` succeeds on it. -/
def updateAt (f : JSON → Option JSON) : Nat → List JSON → Option (List JSON)
  | _, [] => none
  | 0, item :: items => (f item).map (fun i => i :: items)
  | n + 1, item :: items => (updateAt f n items).map (fun l => item :: l)

/-- The operation `add` of RFC 6902 section 4.1 at the location given by the
reference tokens: the root is replaced; a member is added to, or replaced in,
an existing object; an item is inserted into an existing array. The object or
array holding the target must exist, else the operation is an error. -/
def JSON.add (v : JSON) : List String → JSON → Option JSON
  | [], _ => some v
  | [t], .obj members => some (.obj (setMember t v members))
  | [t], .arr items =>
    if t = "-" then some (.arr (items ++ [v]))
    else
      match parseIndex t with
      | some n => (insertAt v n items).map JSON.arr
      | none => none
  | [_], _ => none
  | t :: t2 :: rest, .obj members =>
    match member t members with
    | some child => (JSON.add v (t2 :: rest) child).map (fun c => .obj (setMember t c members))
    | none => none
  | t :: t2 :: rest, .arr items =>
    match parseIndex t with
    | some n => (updateAt (JSON.add v (t2 :: rest)) n items).map JSON.arr
    | none => none
  | _ :: _ :: _, _ => none

/-- One operation of a JSON Patch applied to a document. The engine emits
`add` operations only; no other operation is modelled. -/
def applyOperation (op : PatchOperation) (doc : JSON) : Option JSON :=
  if op.Op = "add" then
    match pointerTokens op.Path, op.Value with
    | some tokens, some v => JSON.add (.str v) tokens doc
    | _, _ => none
  else none

/-- A JSON Patch applied to a document: the operations in order, the whole
patch failing when one of them does. -/
def applyPatch : List PatchOperation → JSON → Option JSON
  | [], doc => some doc
  | op :: ops, doc =>
    match applyOperation op doc with
    | some doc1 => applyPatch ops doc1
    | none => none

/-- A decoder library that knows the text of the empty object, the text of
one object with an empty `spec` and the text of its patched form, and in which
no other member raises a type error. -/
def libSmall : JSONLib :=
  { parse := fun raw =>
      if raw = "\x7b\x7d" then .ok (.obj [])
      else if raw = "\x7b\"spec\":\x7b\x7d\x7d" then .ok (.obj [("spec", .obj [])])
      else if raw = "\x7b\"spec\":\x7b\"ipFamilyPolicy\":\"PreferDualStack\"\x7d\x7d" then
        .ok (.obj [("spec", .obj [("ipFamilyPolicy", .str "PreferDualStack")])])
      else .error "invalid character",
    otherService := fun _ _ => none,
    otherSpec := fun _ _ => none,
    mismatch := fun field _ => "json: cannot unmarshal into Go struct field " ++ field }

/-- An object whose `spec` holds the policy member twice, once under the exact
name and once under a case variant of it, both `null`. -/
def variantDoc : JSON :=
  .obj [("spec", .obj [("ipFamilyPolicy", .null), ("IPFAMILYPOLICY", .null)])]

/-- A request to create a Service whose payload has an empty `spec`. -/
def createSpec : AdmissionRequest :=
  { UID := "uid-3", Operation := "CREATE", Object := { Raw := "\x7b\"spec\":\x7b\x7d\x7d" } }

/-! ## Theorems -/

/-- Claim C1: a CREATE request whose object decodes to a Service with the IP
family policy unset is allowed with exactly one patch operation, the `add` of
`"PreferDualStack"` at `/spec/ipFamilyPolicy` with an empty `From`. -/
theorem executeWebhook_unset_adds_policy (unmarshal : String → Except String Service)
    (r : AdmissionRequest) (service : Service)
    (hop : r.Operation = Create)
    (hdec : unmarshal r.Object.Raw = .ok service)
    (hnil : service.Spec.IPFamilyPolicy = none) :
    (executeWebhook unmarshal r).result.Allowed = true ∧
    (executeWebhook unmarshal r).result.PatchOps.length = 1 ∧
    (executeWebhook unmarshal r).result.PatchOps =
      [{ Op := "add", Path := "/spec/ipFamilyPolicy", From := "",
         Value := some "PreferDualStack" }] := by
  simp [executeWebhook, hop, hdec, hnil]

/-- Witness of C1 at a CREATE request for the empty object. -/
theorem executeWebhook_unset_adds_policy_witness :
    createEmpty.Operation = Create ∧
    (executeWebhook unmarshalUnset createEmpty).result.PatchOps =
      [{ Op := "add", Path := "/spec/ipFamilyPolicy", From := "",
         Value := some "PreferDualStack" }] :=
  ⟨by decide,
   (executeWebhook_unset_adds_policy unmarshalUnset createEmpty
      { Spec := { IPFamilyPolicy := none } } (by decide) rfl rfl).2.2⟩

/-- Claim C2: a CREATE request whose object decodes to a Service that already
has the IP family policy set, to any value, is allowed with no patch
operation. -/
theorem executeWebhook_set_no_patch (unmarshal : String → Except String Service)
    (r : AdmissionRequest) (service : Service) (policy : String)
    (hop : r.Operation = Create)
    (hdec : unmarshal r.Object.Raw = .ok service)
    (hset : service.Spec.IPFamilyPolicy = some policy) :
    (executeWebhook unmarshal r).result.Allowed = true ∧
    (executeWebhook unmarshal r).result.PatchOps = [] := by
  simp [executeWebhook, hop, hdec, hset]

/-- Witness of C2 at a CREATE request whose Service has the policy `SingleStack`. -/
theorem executeWebhook_set_no_patch_witness :
    createEmpty.Operation = Create ∧
    (executeWebhook unmarshalSingle createEmpty).result.Allowed = true ∧
    (executeWebhook unmarshalSingle createEmpty).result.PatchOps = [] :=
  ⟨by decide,
   executeWebhook_set_no_patch unmarshalSingle createEmpty
      { Spec := { IPFamilyPolicy := some "SingleStack" } } "SingleStack" (by decide) rfl rfl⟩

/-- Claim C3: a request whose operation is not CREATE is denied with the
message `Invalid operation: ` followed by the operation, carries no patch
operation and no error, and the object is never handed to the decoder. -/
theorem executeWebhook_not_create_denied (unmarshal : String → Except String Service)
    (r : AdmissionRequest) (hop : r.Operation ≠ Create) :
    (executeWebhook unmarshal r).result =
      { Allowed := false, Msg := "Invalid operation: " ++ r.Operation, PatchOps := [] } ∧
    (executeWebhook unmarshal r).err = none ∧
    (executeWebhook unmarshal r).decoded = [] := by
  simp [executeWebhook, hop]

/-- Witness of C3 at an UPDATE request. -/
theorem executeWebhook_not_create_denied_witness :
    updateEmpty.Operation ≠ Create ∧
    (executeWebhook unmarshalUnset updateEmpty).result =
      { Allowed := false, Msg := "Invalid operation: " ++ updateEmpty.Operation, PatchOps := [] } ∧
    (executeWebhook unmarshalUnset updateEmpty).err = none ∧
    (executeWebhook unmarshalUnset updateEmpty).decoded = [] :=
  ⟨by decide, executeWebhook_not_create_denied unmarshalUnset updateEmpty (by decide)⟩

/-- The error return of `executeWebhook` is nil on every path. -/
theorem executeWebhook_err_none (unmarshal : String → Except String Service)
    (r : AdmissionRequest) : (executeWebhook unmarshal r).err = none := by
  unfold executeWebhook
  split
  · rfl
  · split <;> rfl

/-- The engine on a CREATE request whose object fails to decode. -/
theorem executeWebhook_decode_error (unmarshal : String → Except String Service)
    (r : AdmissionRequest) (e : String)
    (hop : r.Operation = Create) (hdec : unmarshal r.Object.Raw = .error e) :
    executeWebhook unmarshal r =
      { result := { Allowed := false, Msg := e, PatchOps := [] }, err := none,
        decoded := [r.Object.Raw] } := by
  simp [executeWebhook, hop, hdec]

/-- Claim C4: on a CREATE request whose object fails to decode the engine
returns a denial whose message is the decode error text, with no patch
operation and a nil error; the engine returns a nil error on every input; and
the handler answers such a request with the serialized envelope under status
200, the envelope carrying `Allowed = false` and the error text (the only
other outcome being the 500 of a failed envelope serialization). -/
theorem malformed_object_is_denial :
    (∀ (unmarshal : String → Except String Service) (r : AdmissionRequest) (e : String),
      r.Operation = Create → unmarshal r.Object.Raw = .error e →
      (executeWebhook unmarshal r).result = { Allowed := false, Msg := e, PatchOps := [] } ∧
      (executeWebhook unmarshal r).err = none) ∧
    (∀ (unmarshal : String → Except String Service) (r : AdmissionRequest),
      (executeWebhook unmarshal r).err = none) ∧
    (∀ (env : Env) (r : Request) (body : String) (review : AdmissionReview)
      (request : AdmissionRequest) (e : String),
      r.Method = MethodPost → r.Header.Get "Content-Type" = "application/json" →
      r.Body = .ok body → env.decode body = .ok review → review.Request = some request →
      request.Operation = Create → env.unmarshal request.Object.Raw = .error e →
      (∀ ops, Event.marshalPatch ops ∉ (Handle env r).trace) ∧
      Event.marshalReview (review.setResponse
          { UID := request.UID, Allowed := false, Result := some { Message := e },
            Patch := "", PatchType := none }) ∈ (Handle env r).trace ∧
      (∀ res, env.marshalReview (review.setResponse
          { UID := request.UID, Allowed := false, Result := some { Message := e },
            Patch := "", PatchType := none }) = .ok res →
        (Handle env r).w.status = some StatusOK ∧ (Handle env r).w.body = res) ∧
      (∀ m, env.marshalReview (review.setResponse
          { UID := request.UID, Allowed := false, Result := some { Message := e },
            Patch := "", PatchType := none }) = .error m →
        (Handle env r).w.status = some StatusInternalServerError ∧
        (Handle env r).w.body = "could not marshal response: " ++ m ++ "\n")) := by
  refine ⟨?_, executeWebhook_err_none, ?_⟩
  · intro unmarshal r e hop hdec
    simp [executeWebhook_decode_error unmarshal r e hop hdec]
  · intro env r body review request e hm hc hb hd hr hop hdec
    have hexec := executeWebhook_decode_error env.unmarshal request e hop hdec
    refine ⟨?_, ?_, ?_, ?_⟩
    · intro ops
      simp only [Handle, hm, hc, hb, hd, hr, hexec]
      cases hmr : env.marshalReview (review.setResponse
          { UID := request.UID, Allowed := false, Result := some { Message := e },
            Patch := "", PatchType := none }) <;>
        simp [Exchange.emit, Exchange.Error, Exchange.WriteHeader, Exchange.Write, hmr]
    · simp only [Handle, hm, hc, hb, hd, hr, hexec]
      cases hmr : env.marshalReview (review.setResponse
          { UID := request.UID, Allowed := false, Result := some { Message := e },
            Patch := "", PatchType := none }) <;>
        simp [Exchange.emit, Exchange.Error, Exchange.WriteHeader, Exchange.Write, hmr]
    · intro res hres
      simp [Handle, hm, hc, hb, hd, hr, hexec, hres, Exchange.emit, Exchange.Error,
        Exchange.WriteHeader, Exchange.Write, ResponseWriter.Write, ResponseWriter.WriteHeader,
        ResponseWriter.Set, ResponseWriter.new]
    · intro m hres
      simp [Handle, hm, hc, hb, hd, hr, hexec, hres, Exchange.emit, Exchange.Error,
        Exchange.WriteHeader, Exchange.Write, ResponseWriter.Write, ResponseWriter.WriteHeader,
        ResponseWriter.Set, ResponseWriter.new, ResponseWriter.Error]

/-- Witness of C4: a POST of a CREATE review whose object does not decode is
answered with the envelope under status 200. -/
theorem malformed_object_is_denial_witness :
    (Handle envMalformed (postJSON "body")).w.status = some StatusOK ∧
    (Handle envMalformed (postJSON "body")).w.body = "envelope" :=
  (malformed_object_is_denial.2.2 envMalformed (postJSON "body") "body" reviewCreate createEmpty
    "unexpected end of JSON input" (by decide) (by decide) rfl rfl rfl (by decide) rfl).2.2.1
    "envelope" rfl

/-- Claim C10: the status is decided by the first failing check, in the order
method (405, body unread), content type (400, body unread), body read (400),
envelope decode (400), nil request (400 with its own message); in none of the
five cases is the engine invoked, and a response with status 200 is only
written for a request that passed all five checks. -/
theorem Handle_first_failing_check (env : Env) (r : Request) :
    (r.Method ≠ MethodPost →
      (Handle env r).w.status = some StatusMethodNotAllowed ∧
      Event.readAll ∉ (Handle env r).trace ∧
      ∀ q, Event.executeWebhook q ∉ (Handle env r).trace) ∧
    (r.Method = MethodPost → r.Header.Get "Content-Type" ≠ "application/json" →
      (Handle env r).w.status = some StatusBadRequest ∧
      Event.readAll ∉ (Handle env r).trace ∧
      ∀ q, Event.executeWebhook q ∉ (Handle env r).trace) ∧
    (r.Method = MethodPost → r.Header.Get "Content-Type" = "application/json" →
      ∀ e, r.Body = .error e →
      (Handle env r).w.status = some StatusBadRequest ∧
      (Handle env r).w.body = "could not read request body: " ++ e ++ "\n" ∧
      ∀ q, Event.executeWebhook q ∉ (Handle env r).trace) ∧
    (r.Method = MethodPost → r.Header.Get "Content-Type" = "application/json" →
      ∀ body e, r.Body = .ok body → env.decode body = .error e →
      (Handle env r).w.status = some StatusBadRequest ∧
      (Handle env r).w.body = "could not deserialize request: " ++ e ++ "\n" ∧
      ∀ q, Event.executeWebhook q ∉ (Handle env r).trace) ∧
    (r.Method = MethodPost → r.Header.Get "Content-Type" = "application/json" →
      ∀ body review, r.Body = .ok body → env.decode body = .ok review →
      review.Request = none →
      (Handle env r).w.status = some StatusBadRequest ∧
      (Handle env r).w.body = "malformed admission review: request is nil\n" ∧
      ∀ q, Event.executeWebhook q ∉ (Handle env r).trace) ∧
    ((Handle env r).w.status = some StatusOK →
      r.Method = MethodPost ∧ r.Header.Get "Content-Type" = "application/json" ∧
      ∃ body review request, r.Body = .ok body ∧ env.decode body = .ok review ∧
        review.Request = some request) := by
  refine ⟨?_, ?_, ?_, ?_, ?_, ?_⟩
  · intro hm
    simp [Handle, hm, Exchange.Error, ResponseWriter.Error, ResponseWriter.Write,
      ResponseWriter.WriteHeader, ResponseWriter.Set, ResponseWriter.new]
  · intro hm hc
    simp [Handle, hm, hc, Exchange.Error, ResponseWriter.Error, ResponseWriter.Write,
      ResponseWriter.WriteHeader, ResponseWriter.Set, ResponseWriter.new]
  · intro hm hc e hb
    simp [Handle, hm, hc, hb, Exchange.Error, Exchange.emit, ResponseWriter.Error,
      ResponseWriter.Write, ResponseWriter.WriteHeader, ResponseWriter.Set, ResponseWriter.new]
  · intro hm hc body e hb hd
    simp [Handle, hm, hc, hb, hd, Exchange.Error, Exchange.emit, ResponseWriter.Error,
      ResponseWriter.Write, ResponseWriter.WriteHeader, ResponseWriter.Set, ResponseWriter.new]
  · intro hm hc body review hb hd hr
    simp [Handle, hm, hc, hb, hd, hr, Exchange.Error, Exchange.emit, ResponseWriter.Error,
      ResponseWriter.Write, ResponseWriter.WriteHeader, ResponseWriter.Set, ResponseWriter.new]
  · intro h200
    by_cases hm : r.Method = MethodPost
    · by_cases hc : r.Header.Get "Content-Type" = "application/json"
      · refine ⟨hm, hc, ?_⟩
        cases hb : r.Body with
        | error e =>
          simp [Handle, hm, hc, hb, Exchange.Error, Exchange.emit, ResponseWriter.Error,
            ResponseWriter.Write, ResponseWriter.WriteHeader, ResponseWriter.Set,
            ResponseWriter.new, StatusBadRequest, StatusOK] at h200
        | ok body =>
          cases hd : env.decode body with
          | error e =>
            simp [Handle, hm, hc, hb, hd, Exchange.Error, Exchange.emit, ResponseWriter.Error,
              ResponseWriter.Write, ResponseWriter.WriteHeader, ResponseWriter.Set,
              ResponseWriter.new, StatusBadRequest, StatusOK] at h200
          | ok review =>
            cases hr : review.Request with
            | none =>
              simp [Handle, hm, hc, hb, hd, hr, Exchange.Error, Exchange.emit,
                ResponseWriter.Error, ResponseWriter.Write, ResponseWriter.WriteHeader,
                ResponseWriter.Set, ResponseWriter.new, StatusBadRequest, StatusOK] at h200
            | some request => exact ⟨body, review, request, rfl, hd, hr⟩
      · simp [Handle, hm, hc, Exchange.Error, ResponseWriter.Error, ResponseWriter.Write,
          ResponseWriter.WriteHeader, ResponseWriter.Set, ResponseWriter.new,
          StatusBadRequest, StatusOK] at h200
    · simp [Handle, hm, Exchange.Error, ResponseWriter.Error, ResponseWriter.Write,
        ResponseWriter.WriteHeader, ResponseWriter.Set, ResponseWriter.new,
        StatusMethodNotAllowed, StatusOK] at h200

/-- Witness of C10, one request per check: a GET is answered 405 without the
body being read; a POST of `text/plain`, a POST with an unreadable body, a
POST the decoder rejects and a POST whose review has no request are answered
400, the last with its own message. -/
theorem Handle_first_failing_check_witness :
    (getJSON.Method ≠ MethodPost ∧
      (Handle envMalformed getJSON).w.status = some StatusMethodNotAllowed ∧
      Event.readAll ∉ (Handle envMalformed getJSON).trace) ∧
    (postText.Header.Get "Content-Type" ≠ "application/json" ∧
      (Handle envMalformed postText).w.status = some StatusBadRequest) ∧
    (Handle envMalformed postUnreadable).w.status = some StatusBadRequest ∧
    (Handle envUndecodable (postJSON "body")).w.status = some StatusBadRequest ∧
    ((Handle envNilRequest (postJSON "body")).w.status = some StatusBadRequest ∧
      (Handle envNilRequest (postJSON "body")).w.body =
        "malformed admission review: request is nil\n") :=
  ⟨⟨by decide, ((Handle_first_failing_check envMalformed getJSON).1 (by decide)).1,
     ((Handle_first_failing_check envMalformed getJSON).1 (by decide)).2.1⟩,
   ⟨by decide,
     ((Handle_first_failing_check envMalformed postText).2.1 (by decide) (by decide)).1⟩,
   ((Handle_first_failing_check envMalformed postUnreadable).2.2.1 (by decide) (by decide)
     "unexpected EOF" rfl).1,
   ((Handle_first_failing_check envUndecodable (postJSON "body")).2.2.2.1 (by decide)
     (by decide) "body" _ rfl rfl).1,
   ⟨((Handle_first_failing_check envNilRequest (postJSON "body")).2.2.2.2.1 (by decide)
      (by decide) "body" _ rfl rfl rfl).1,
    ((Handle_first_failing_check envNilRequest (postJSON "body")).2.2.2.2.1 (by decide)
      (by decide) "body" _ rfl rfl rfl).2.1⟩⟩

/-- Claim C6: when the decoded review carries a request, the one envelope the
handler serializes, and hence any envelope it writes, holds a response whose
UID is the request UID, whose allow flag is the engine result flag and whose
status message is the engine result message. -/
theorem Handle_response_echoes_request (env : Env) (r : Request) (body : String)
    (review : AdmissionReview) (request : AdmissionRequest)
    (hm : r.Method = MethodPost)
    (hc : r.Header.Get "Content-Type" = "application/json")
    (hb : r.Body = .ok body) (hd : env.decode body = .ok review)
    (hr : review.Request = some request) :
    ∃ resp : AdmissionResponse,
      Event.marshalReview (review.setResponse resp) ∈ (Handle env r).trace ∧
      (∀ rv, Event.marshalReview rv ∈ (Handle env r).trace → rv = review.setResponse resp) ∧
      (∀ res, Event.write res ∈ (Handle env r).trace →
        env.marshalReview (review.setResponse resp) = .ok res) ∧
      resp.UID = request.UID ∧
      resp.Allowed = (executeWebhook env.unmarshal request).result.Allowed ∧
      resp.Result = some { Message := (executeWebhook env.unmarshal request).result.Msg } := by
  simp only [Handle, hm, hc, hb, hd, hr, executeWebhook_err_none]
  by_cases hp : (executeWebhook env.unmarshal request).result.PatchOps.length > 0
  · cases hmp : env.marshalPatch (executeWebhook env.unmarshal request).result.PatchOps with
    | error e =>
      refine ⟨{ UID := request.UID,
                Allowed := (executeWebhook env.unmarshal request).result.Allowed,
                Result := some { Message := (executeWebhook env.unmarshal request).result.Msg },
                Patch := "", PatchType := some PatchTypeJSONPatch }, ?_⟩
      cases hmr : env.marshalReview (review.setResponse
          { UID := request.UID,
            Allowed := (executeWebhook env.unmarshal request).result.Allowed,
            Result := some { Message := (executeWebhook env.unmarshal request).result.Msg },
            Patch := "", PatchType := some PatchTypeJSONPatch }) <;>
        simp [hp, hmp, hmr, Exchange.emit, Exchange.Error, Exchange.WriteHeader, Exchange.Write]
    | ok patchBytes =>
      refine ⟨{ UID := request.UID,
                Allowed := (executeWebhook env.unmarshal request).result.Allowed,
                Result := some { Message := (executeWebhook env.unmarshal request).result.Msg },
                Patch := patchBytes, PatchType := some PatchTypeJSONPatch }, ?_⟩
      cases hmr : env.marshalReview (review.setResponse
          { UID := request.UID,
            Allowed := (executeWebhook env.unmarshal request).result.Allowed,
            Result := some { Message := (executeWebhook env.unmarshal request).result.Msg },
            Patch := patchBytes, PatchType := some PatchTypeJSONPatch }) <;>
        simp [hp, hmp, hmr, Exchange.emit, Exchange.Error, Exchange.WriteHeader, Exchange.Write]
  · refine ⟨{ UID := request.UID,
              Allowed := (executeWebhook env.unmarshal request).result.Allowed,
              Result := some { Message := (executeWebhook env.unmarshal request).result.Msg },
              Patch := "", PatchType := none }, ?_⟩
    cases hmr : env.marshalReview (review.setResponse
        { UID := request.UID,
          Allowed := (executeWebhook env.unmarshal request).result.Allowed,
          Result := some { Message := (executeWebhook env.unmarshal request).result.Msg },
          Patch := "", PatchType := none }) <;>
      simp [hp, hmr, Exchange.emit, Exchange.Error, Exchange.WriteHeader, Exchange.Write]

/-- Witness of C6 at a POST of a CREATE review whose object does not decode:
the response of the serialized envelope carries the request UID. -/
theorem Handle_response_echoes_request_witness :
    ∃ resp : AdmissionResponse,
      Event.marshalReview (reviewCreate.setResponse resp) ∈
        (Handle envMalformed (postJSON "body")).trace ∧
      resp.UID = createEmpty.UID :=
  (Handle_response_echoes_request envMalformed (postJSON "body") "body" reviewCreate createEmpty
    (by decide) (by decide) rfl rfl rfl).imp fun _ h => ⟨h.1, h.2.2.2.1⟩

/-- Claim C7, the code at the failing input: the engine result has a
non-empty patch sequence and its serialization fails; the handler still sets
the patch type on the response and leaves the patch blob empty, and this is
the response it serializes: a patch type without a patch. -/
theorem patch_type_set_without_patch :
    (executeWebhook envPatchFails.unmarshal createEmpty).result.PatchOps ≠ [] ∧
    envPatchFails.marshalPatch (executeWebhook envPatchFails.unmarshal createEmpty).result.PatchOps
      = .error "unsupported value" ∧
    Event.marshalReview (reviewCreate.setResponse
      { UID := "uid-1", Allowed := true, Result := some { Message := "" },
        Patch := "", PatchType := some "JSONPatch" }) ∈
      (Handle envPatchFails (postJSON "body")).trace :=
  ⟨by decide, rfl, by decide⟩

/-- Claim C9, the code at the failing input: after reporting the failed
serialization of the patch operations with status 500 the handler goes on: it
serializes the envelope, calls `WriteHeader(200)` and appends the envelope to
the body already holding the error message. -/
theorem patch_failure_falls_through :
    (Handle envPatchFails (postJSON "body")).w.status = some 500 ∧
    (Handle envPatchFails (postJSON "body")).w.body =
      "could not marshal JSON patch: unsupported value\nenvelope" ∧
    (Handle envPatchFails (postJSON "body")).trace =
      [ Event.readAll, Event.decode "body", Event.executeWebhook createEmpty,
        Event.unmarshal "\x7b\x7d",
        Event.marshalPatch [{ Op := "add", Path := "/spec/ipFamilyPolicy", From := "",
                              Value := some "PreferDualStack" }],
        Event.klogError "unsupported value",
        Event.httpError "could not marshal JSON patch: unsupported value" 500,
        Event.marshalReview (reviewCreate.setResponse
          { UID := "uid-1", Allowed := true, Result := some { Message := "" },
            Patch := "", PatchType := some "JSONPatch" }),
        Event.klogInfo "Webhook [/mutate/services - CREATE] - Allowed: true",
        Event.writeHeader 200, Event.write "envelope" ] := by
  decide

/-- Claim C8, as the code has it: for a CREATE request whose object decodes
to a Service without the policy field, the patch placed in the response is the
JSON array of the one object with the members `op`, `path`, `from` and
`value`, the `from` member being written as the empty string. -/
theorem Handle_patch_wire_format (env : Env) (r : Request) (body : String)
    (review : AdmissionReview) (request : AdmissionRequest) (service : Service)
    (hm : r.Method = MethodPost)
    (hc : r.Header.Get "Content-Type" = "application/json")
    (hb : r.Body = .ok body) (hd : env.decode body = .ok review)
    (hr : review.Request = some request)
    (hop : request.Operation = Create)
    (hdec : env.unmarshal request.Object.Raw = .ok service)
    (hnil : service.Spec.IPFamilyPolicy = none)
    (hjson : ∀ ops, env.marshalPatch ops = .ok (jsonMarshal ops)) :
    Event.marshalReview (review.setResponse
      { UID := request.UID, Allowed := true, Result := some { Message := "" },
        Patch := "[\x7b\"op\":\"add\",\"path\":\"/spec/ipFamilyPolicy\",\"from\":\"\",\"value\":\"PreferDualStack\"\x7d]",
        PatchType := some "JSONPatch" }) ∈ (Handle env r).trace := by
  have hexec : executeWebhook env.unmarshal request =
      { result := { Allowed := true, Msg := "", PatchOps :=
          [{ Op := "add", Path := "/spec/ipFamilyPolicy", From := "",
             Value := some "PreferDualStack" }] },
        err := none, decoded := [request.Object.Raw] } := by
    simp [executeWebhook, hop, hdec, hnil]
  have hbytes : jsonMarshal [{ Op := "add", Path := "/spec/ipFamilyPolicy", From := "",
                               Value := some "PreferDualStack" }] =
      "[\x7b\"op\":\"add\",\"path\":\"/spec/ipFamilyPolicy\",\"from\":\"\",\"value\":\"PreferDualStack\"\x7d]" := by
    decide
  simp only [Handle, hm, hc, hb, hd, hr, hexec, hjson, hbytes]
  cases hmr : env.marshalReview (review.setResponse
      { UID := request.UID, Allowed := true, Result := some { Message := "" },
        Patch := "[\x7b\"op\":\"add\",\"path\":\"/spec/ipFamilyPolicy\",\"from\":\"\",\"value\":\"PreferDualStack\"\x7d]",
        PatchType := some "JSONPatch" }) <;>
    simp [hmr, PatchTypeJSONPatch, Exchange.emit, Exchange.Error, Exchange.WriteHeader,
      Exchange.Write]

/-- Witness of the amended C8 at a POST of a CREATE review for the empty
object. -/
theorem Handle_patch_wire_format_witness :
    Event.marshalReview (reviewCreate.setResponse
      { UID := createEmpty.UID, Allowed := true, Result := some { Message := "" },
        Patch := "[\x7b\"op\":\"add\",\"path\":\"/spec/ipFamilyPolicy\",\"from\":\"\",\"value\":\"PreferDualStack\"\x7d]",
        PatchType := some "JSONPatch" }) ∈ (Handle envJSON (postJSON "body")).trace :=
  Handle_patch_wire_format envJSON (postJSON "body") "body" reviewCreate createEmpty
    { Spec := { IPFamilyPolicy := none } } (by decide) (by decide) rfl rfl rfl (by decide) rfl rfl
    (fun _ => rfl)

/-- Counterexample to C8 as stated: for a CREATE request whose object lacks
the policy field the patch placed in the response is not the object with the
members `op`, `path` and `value` only; it carries `"from":""` as well. -/
theorem patch_carries_from_member :
    Event.marshalReview (reviewCreate.setResponse
      { UID := "uid-1", Allowed := true, Result := some { Message := "" },
        Patch := "[\x7b\"op\":\"add\",\"path\":\"/spec/ipFamilyPolicy\",\"from\":\"\",\"value\":\"PreferDualStack\"\x7d]",
        PatchType := some "JSONPatch" }) ∈ (Handle envJSON (postJSON "body")).trace ∧
    Event.marshalReview (reviewCreate.setResponse
      { UID := "uid-1", Allowed := true, Result := some { Message := "" },
        Patch := "[\x7b\"op\":\"add\",\"path\":\"/spec/ipFamilyPolicy\",\"value\":\"PreferDualStack\"\x7d]",
        PatchType := some "JSONPatch" }) ∉ (Handle envJSON (postJSON "body")).trace ∧
    jsonMarshal (executeWebhook unmarshalUnset createEmpty).result.PatchOps ≠
      "[\x7b\"op\":\"add\",\"path\":\"/spec/ipFamilyPolicy\",\"value\":\"PreferDualStack\"\x7d]" := by
  decide

/-- The patch the engine emits, applied to an object whose member `spec` is an
object. -/
theorem applyPatch_spec_object (members spec : List (String × JSON))
    (hspec : member "spec" members = some (.obj spec)) :
    applyPatch [{ Op := "add", Path := "/spec/ipFamilyPolicy", From := "",
                  Value := some "PreferDualStack" }] (.obj members) =
      some (.obj (setMember "spec"
        (.obj (setMember "ipFamilyPolicy" (.str "PreferDualStack") spec)) members)) := by
  have htok : pointerTokens "/spec/ipFamilyPolicy" = some ["spec", "ipFamilyPolicy"] := by
    decide
  simp [applyPatch, applyOperation, htok, JSON.add, hspec]

/-- A member that binds to the field, in an object where at most one does and
by the exact name: it carries the exact name and no later member binds. -/
theorem bindsOnce_head_binds (field k : String) (v : JSON) (rest : List (String × JSON))
    (hb : bindsOnce field ((k, v) :: rest) = true) (hk : matchesField field k = true) :
    k = field ∧ ∀ kv ∈ rest, matchesField field kv.1 = false := by
  simp only [bindsOnce, List.filter_cons, hk, if_true, List.length_cons, List.all_cons,
    Bool.and_eq_true, decide_eq_true_eq, Bool.not_true, Bool.false_or, beq_iff_eq] at hb
  refine ⟨hb.2.1, ?_⟩
  have hnil : List.filter (fun kv => matchesField field kv.1) rest = [] :=
    List.length_eq_zero.mp (by omega)
  intro kv hkv
  have := List.filter_eq_nil_iff.mp hnil kv hkv
  simpa using this

/-- A member that does not bind to the field leaves the rest of the object
with at most one binding member. -/
theorem bindsOnce_tail (field k : String) (v : JSON) (rest : List (String × JSON))
    (hb : bindsOnce field ((k, v) :: rest) = true) (hk : matchesField field k = false) :
    bindsOnce field rest = true := by
  simp only [bindsOnce, List.filter_cons, hk, List.all_cons, Bool.and_eq_true,
    decide_eq_true_eq] at hb
  simp only [bindsOnce, Bool.and_eq_true, decide_eq_true_eq]
  exact ⟨by simpa using hb.1, hb.2.2⟩

/-- Members none of which binds to the field leave the value as it is,
whatever it is, when their decoding succeeds at all. -/
theorem decodeMembers_skip {σ : Type} (field : String) (bind : JSON → σ → Except String σ)
    (other : String → JSON → Option String) (ms : List (String × JSON))
    (hno : ∀ kv ∈ ms, matchesField field kv.1 = false) (s s1 : σ)
    (h : decodeMembers field bind other ms s = .ok s1) :
    ∀ t, decodeMembers field bind other ms t = .ok t := by
  induction ms generalizing s with
  | nil => intro t; rfl
  | cons kv rest ih =>
    obtain ⟨k, v⟩ := kv
    have hk : matchesField field k = false := hno (k, v) (List.mem_cons_self _ _)
    have hrest : ∀ kv ∈ rest, matchesField field kv.1 = false :=
      fun kv hkv => hno kv (List.mem_cons_of_mem _ hkv)
    intro t
    simp only [decodeMembers, hk] at h ⊢
    cases ho : other k v with
    | some e => simp [ho] at h
    | none =>
      simp only [ho] at h ⊢
      exact ih hrest s h t

/-- When an object decodes, the member found under the exact name of the
field has been decoded into the value. -/
theorem decodeMembers_binds_member {σ : Type} (field : String)
    (bind : JSON → σ → Except String σ) (other : String → JSON → Option String)
    (hself : matchesField field field = true) (v : JSON) (ms : List (String × JSON))
    (hmem : member field ms = some v) (s s1 : σ)
    (h : decodeMembers field bind other ms s = .ok s1) :
    ∃ st st1, bind v st = .ok st1 := by
  induction ms generalizing s with
  | nil => simp [member] at hmem
  | cons kv rest ih =>
    obtain ⟨k, w⟩ := kv
    by_cases hk : k = field
    · subst hk
      simp only [member, if_true, Option.some.injEq] at hmem
      subst hmem
      simp only [decodeMembers, hself, if_true] at h
      cases hb : bind w s with
      | error e => simp [hb] at h
      | ok st1 => exact ⟨s, st1, hb⟩
    · simp only [member, hk, if_false] at hmem
      simp only [decodeMembers] at h
      by_cases hm : matchesField field k = true
      · simp only [hm, if_true] at h
        cases hb : bind w s with
        | error e => simp [hb] at h
        | ok st1 =>
          simp only [hb] at h
          exact ih hmem st1 h
      · simp only [hm] at h
        cases ho : other k w with
        | some e => simp [ho] at h
        | none =>
          simp only [ho] at h
          exact ih hmem s h

/-- Setting the one member that binds to a field: when the object decoded
before, it decodes after, and what the new value establishes on the decoded
value holds at the end. -/
theorem decodeMembers_setMember {σ : Type} (field : String)
    (bind : JSON → σ → Except String σ) (other : String → JSON → Option String)
    (Q : σ → Prop) (v1 : JSON) (hself : matchesField field field = true)
    (hv : ∀ s, ∃ t, bind v1 s = .ok t ∧ Q t) (ms : List (String × JSON))
    (hb : bindsOnce field ms = true) (s0 s1 : σ)
    (h : decodeMembers field bind other ms s0 = .ok s1) :
    ∀ s2, ∃ t, decodeMembers field bind other (setMember field v1 ms) s2 = .ok t ∧ Q t := by
  induction ms generalizing s0 with
  | nil =>
    intro s2
    obtain ⟨t, ht, hq⟩ := hv s2
    exact ⟨t, by simp [setMember, decodeMembers, hself, ht], hq⟩
  | cons kv rest ih =>
    obtain ⟨k, v⟩ := kv
    intro s2
    by_cases hm : matchesField field k = true
    · obtain ⟨hk, hno⟩ := bindsOnce_head_binds field k v rest hb hm
      subst hk
      simp only [decodeMembers, hm, if_true] at h
      cases hbind : bind v s0 with
      | error e => simp [hbind] at h
      | ok st1 =>
        simp only [hbind] at h
        obtain ⟨t, ht, hq⟩ := hv s2
        refine ⟨t, ?_, hq⟩
        simp only [setMember, if_true, decodeMembers, hm, ht]
        exact decodeMembers_skip k bind other rest hno st1 s1 h t
    · have hmf : matchesField field k = false := by simpa using hm
      have hk : k ≠ field := by
        intro hk
        rw [hk, hself] at hmf
        exact Bool.noConfusion hmf
      simp only [decodeMembers, hmf] at h
      cases ho : other k v with
      | some e => simp [ho] at h
      | none =>
        simp only [ho] at h
        obtain ⟨t, ht, hq⟩ := ih (bindsOnce_tail field k v rest hb hmf) s0 h s2
        refine ⟨t, ?_, hq⟩
        simp [setMember, hk, decodeMembers, hmf, ho, ht]

/-- What `bindsOnce` says, as a proposition. -/
theorem bindsOnce_iff (field : String) (ms : List (String × JSON)) :
    bindsOnce field ms = true ↔
      (ms.filter (fun kv => matchesField field kv.1)).length ≤ 1 ∧
      ∀ kv ∈ ms, matchesField field kv.1 = true → kv.1 = field := by
  simp only [bindsOnce, Bool.and_eq_true, decide_eq_true_eq, List.all_eq_true,
    Bool.or_eq_true, Bool.not_eq_true', beq_iff_eq]
  constructor
  · rintro ⟨h1, h2⟩
    refine ⟨h1, fun kv hkv hm => ?_⟩
    rcases h2 kv hkv with h | h
    · rw [h] at hm; exact Bool.noConfusion hm
    · exact h
  · rintro ⟨h1, h2⟩
    refine ⟨h1, fun kv hkv => ?_⟩
    by_cases hm : matchesField field kv.1 = true
    · exact Or.inr (h2 kv hkv hm)
    · exact Or.inl (by simpa using hm)

/-- The property `bindsOnce` does not depend on the order of the members. -/
theorem bindsOnce_perm (field : String) (l1 l2 : List (String × JSON)) (h : l1.Perm l2)
    (hb : bindsOnce field l1 = true) : bindsOnce field l2 = true := by
  rw [bindsOnce_iff] at hb ⊢
  refine ⟨?_, fun kv hkv hm => hb.2 kv (h.mem_iff.mpr hkv) hm⟩
  rw [← (h.filter (fun kv => matchesField field kv.1)).length_eq]
  exact hb.1

/-- The property `bindsOnce` passes to the rest of the members. -/
theorem bindsOnce_of_cons (field : String) (kv : String × JSON) (rest : List (String × JSON))
    (hb : bindsOnce field (kv :: rest) = true) : bindsOnce field rest = true := by
  rw [bindsOnce_iff] at hb ⊢
  refine ⟨?_, fun x hx hm => hb.2 x (List.mem_cons_of_mem _ hx) hm⟩
  have hle : (rest.filter (fun kv => matchesField field kv.1)).length ≤
      ((kv :: rest).filter (fun kv => matchesField field kv.1)).length := by
    rw [List.filter_cons]
    split <;> simp
  omega

/-- Setting the member named exactly as the field keeps `bindsOnce`. -/
theorem bindsOnce_setMember (field : String) (v1 : JSON) (ms : List (String × JSON))
    (hself : matchesField field field = true) (hb : bindsOnce field ms = true) :
    bindsOnce field (setMember field v1 ms) = true := by
  induction ms with
  | nil => simp [setMember, bindsOnce, hself]
  | cons kv rest ih =>
    obtain ⟨k, v⟩ := kv
    by_cases hm : matchesField field k = true
    · obtain ⟨hk, hno⟩ := bindsOnce_head_binds field k v rest hb hm
      subst hk
      have hkeep := hb
      rw [bindsOnce_iff] at hkeep ⊢
      simp only [setMember, if_true]
      refine ⟨?_, fun x hx hmx => ?_⟩
      · simpa [List.filter_cons, hm] using hkeep.1
      · rcases List.mem_cons.mp hx with h | h
        · rw [h]
        · exact hkeep.2 x (List.mem_cons_of_mem _ h) hmx
    · have hmf : matchesField field k = false := by simpa using hm
      have hk : k ≠ field := by
        intro hk
        rw [hk, hself] at hmf
        exact Bool.noConfusion hmf
      have hrest := ih (bindsOnce_tail field k v rest hb hmf)
      rw [bindsOnce_iff] at hrest ⊢
      simp only [setMember, hk, if_false]
      refine ⟨by simpa [List.filter_cons, hmf] using hrest.1, fun x hx hmx => ?_⟩
      rcases List.mem_cons.mp hx with h | h
      · rw [h] at hmx
        rw [hmf] at hmx
        exact Bool.noConfusion hmx
      · exact hrest.2 x h hmx

/-- The outcome of decoding an object in which at most one member binds to the
field does not depend on the order of its members. -/
theorem decodeMembers_perm {σ : Type} (field : String) (bind : JSON → σ → Except String σ)
    (other : String → JSON → Option String) (l1 l2 : List (String × JSON))
    (h : l1.Perm l2) (hb : bindsOnce field l1 = true) (s t : σ)
    (hd : decodeMembers field bind other l1 s = .ok t) :
    decodeMembers field bind other l2 s = .ok t := by
  induction h generalizing s with
  | nil => exact hd
  | cons x _ ih =>
    obtain ⟨k, v⟩ := x
    have hrest := bindsOnce_of_cons field (k, v) _ hb
    simp only [decodeMembers] at hd ⊢
    by_cases hm : matchesField field k = true
    · simp only [hm, if_true] at hd ⊢
      cases hbind : bind v s with
      | error e => simp [hbind] at hd
      | ok s1 =>
        simp only [hbind] at hd ⊢
        exact ih hrest s1 hd
    · simp only [hm] at hd ⊢
      cases ho : other k v with
      | some e => simp [ho] at hd
      | none =>
        simp only [ho] at hd ⊢
        exact ih hrest s hd
  | swap x y l =>
    obtain ⟨k, v⟩ := x
    obtain ⟨k2, v2⟩ := y
    by_cases hm2 : matchesField field k2 = true
    · obtain ⟨_, hno⟩ := bindsOnce_head_binds field k2 v2 ((k, v) :: l) hb hm2
      have hm : matchesField field k = false := hno (k, v) (List.mem_cons_self _ _)
      simp only [decodeMembers, hm2, hm, if_true] at hd ⊢
      cases ho : other k v with
      | some e =>
        cases hbind : bind v2 s <;> simp [ho, hbind] at hd
      | none =>
        cases hbind : bind v2 s with
        | error e => simp [hbind] at hd
        | ok s1 =>
          simp only [ho, hbind] at hd ⊢
          exact hd
    · have hm2f : matchesField field k2 = false := by simpa using hm2
      simp only [decodeMembers, hm2f] at hd ⊢
      cases ho2 : other k2 v2 with
      | some e => simp [ho2] at hd
      | none =>
        simp only [ho2] at hd ⊢
        by_cases hm : matchesField field k = true
        · simp only [hm, if_true] at hd ⊢
          cases hbind : bind v s with
          | error e => simp [hbind] at hd
          | ok s1 =>
            simp only [hbind] at hd ⊢
            exact hd
        · simp only [hm] at hd ⊢
          cases ho : other k v with
          | some e => simp [ho] at hd
          | none =>
            simp only [ho] at hd ⊢
            exact hd
  | trans h12 _ ih1 ih2 =>
    exact ih2 (bindsOnce_perm field _ _ h12 hb) s (ih1 hb s hd)

/-- The patched `spec` object, its members in any order, decodes, into any
Service, to one whose policy is the value the patch wrote. -/
theorem decodeSpec_patched (lib : JSONLib) (spec sp : List (String × JSON))
    (hpol : bindsOnce "ipFamilyPolicy" spec = true)
    (hsp : sp.Perm (setMember "ipFamilyPolicy" (.str "PreferDualStack") spec))
    (s0 s1 : ServiceSpec)
    (h : decodeMembers "ipFamilyPolicy" (decodePolicy lib) lib.otherSpec spec s0 = .ok s1)
    (service : Service) :
    ∃ t, decodeSpec lib (.obj sp) service = .ok t ∧
      t.Spec.IPFamilyPolicy = some "PreferDualStack" := by
  obtain ⟨t, ht, hq⟩ := decodeMembers_setMember "ipFamilyPolicy" (decodePolicy lib)
    lib.otherSpec (fun t => t.IPFamilyPolicy = some "PreferDualStack")
    (.str "PreferDualStack") (by decide) (fun s => ⟨_, rfl, rfl⟩) spec hpol s0 s1 h service.Spec
  have hsame := decodeMembers_perm "ipFamilyPolicy" (decodePolicy lib) lib.otherSpec _ sp
    hsp.symm (bindsOnce_setMember "ipFamilyPolicy" _ spec (by decide) hpol) service.Spec t ht
  exact ⟨{ service with Spec := t }, by simp [decodeSpec, hsame], hq⟩

/-- The patched object, its members and those of its `spec` in any order,
decodes to a Service whose policy is the value the patch wrote, when the
original object decoded. -/
theorem decodeService_patched (lib : JSONLib) (members spec sp ms : List (String × JSON))
    (hspec : member "spec" members = some (.obj spec))
    (hone : bindsOnce "spec" members = true)
    (hpol : bindsOnce "ipFamilyPolicy" spec = true)
    (hsp : sp.Perm (setMember "ipFamilyPolicy" (.str "PreferDualStack") spec))
    (hms : ms.Perm (setMember "spec" (.obj sp) members))
    (service : Service)
    (h : decodeService lib (.obj members) = .ok service) :
    ∃ t, decodeService lib (.obj ms) = .ok t ∧
      t.Spec.IPFamilyPolicy = some "PreferDualStack" := by
  simp only [decodeService] at h ⊢
  obtain ⟨st, st1, hbind⟩ := decodeMembers_binds_member "spec" (decodeSpec lib)
    lib.otherService (by decide) (.obj spec) members hspec _ service h
  have hmembers : ∃ s1, decodeMembers "ipFamilyPolicy" (decodePolicy lib) lib.otherSpec spec
      st.Spec = .ok s1 := by
    simp only [decodeSpec] at hbind
    cases hd : decodeMembers "ipFamilyPolicy" (decodePolicy lib) lib.otherSpec spec st.Spec with
    | error e => simp [hd] at hbind
    | ok s1 => exact ⟨s1, rfl⟩
  obtain ⟨s1, hs1⟩ := hmembers
  obtain ⟨t, ht, hq⟩ := decodeMembers_setMember "spec" (decodeSpec lib) lib.otherService
    (fun t => t.Spec.IPFamilyPolicy = some "PreferDualStack") (.obj sp) (by decide)
    (fun s => decodeSpec_patched lib spec sp hpol hsp st.Spec s1 hs1 s) members hone _ service h
    { Spec := { IPFamilyPolicy := none } }
  exact ⟨t, decodeMembers_perm "spec" (decodeSpec lib) lib.otherService _ ms hms.symm
    (bindsOnce_setMember "spec" _ members (by decide) hone) _ t ht, hq⟩

/-- Claim C5, as the code has it: for a CREATE request whose object has one
member binding to `spec`, named exactly so and holding a JSON object in which
at most one member binds to `ipFamilyPolicy`, named exactly so: whenever the
engine emits a patch, the patch applies to the object, setting the policy
member of `spec`, and the engine run on the patched object, its members and
those of its `spec` written in any order, allows it with no patch operation. -/
theorem patched_object_is_fixed_point (lib : JSONLib) (r : AdmissionRequest)
    (members spec : List (String × JSON))
    (hop : r.Operation = Create)
    (hparse : lib.parse r.Object.Raw = .ok (.obj members))
    (hspec : member "spec" members = some (.obj spec))
    (hone : bindsOnce "spec" members = true)
    (hpol : bindsOnce "ipFamilyPolicy" spec = true)
    (hpatch : (executeWebhook (unmarshalJSON lib) r).result.PatchOps ≠ []) :
    applyPatch (executeWebhook (unmarshalJSON lib) r).result.PatchOps (.obj members) =
      some (.obj (setMember "spec"
        (.obj (setMember "ipFamilyPolicy" (.str "PreferDualStack") spec)) members)) ∧
    ∀ raw sp ms,
      sp.Perm (setMember "ipFamilyPolicy" (.str "PreferDualStack") spec) →
      ms.Perm (setMember "spec" (.obj sp) members) →
      lib.parse raw = .ok (.obj ms) →
      (executeWebhook (unmarshalJSON lib) { r with Object := { Raw := raw } }).result =
        { Allowed := true, Msg := "", PatchOps := [] } := by
  have horig : unmarshalJSON lib r.Object.Raw = decodeService lib (.obj members) := by
    simp [unmarshalJSON, hparse]
  cases hdec : decodeService lib (.obj members) with
  | error e => simp [executeWebhook, hop, horig, hdec] at hpatch
  | ok service =>
    refine ⟨?_, ?_⟩
    · rw [← applyPatch_spec_object members spec hspec]
      congr 1
      by_cases hnil : service.Spec.IPFamilyPolicy = none
      · simp [executeWebhook, hop, horig, hdec, hnil]
      · simp [executeWebhook, hop, horig, hdec, hnil] at hpatch
    · intro raw sp ms hsp hms hraw
      obtain ⟨t, ht, hq⟩ := decodeService_patched lib members spec sp ms hspec hone hpol
        hsp hms service hdec
      have hre : unmarshalJSON lib raw = .ok t := by
        simp [unmarshalJSON, hraw, ht]
      simp [executeWebhook, hop, hre, hq]

/-- Witness of the amended C5 at a CREATE request for an object with an empty
`spec`: the patch applies and the engine allows the patched object with no
patch operation. -/
theorem patched_object_is_fixed_point_witness :
    createSpec.Operation = Create ∧
    bindsOnce "spec" [("spec", .obj [])] = true ∧
    (executeWebhook (unmarshalJSON libSmall) createSpec).result.PatchOps ≠ [] ∧
    applyPatch (executeWebhook (unmarshalJSON libSmall) createSpec).result.PatchOps
      (.obj [("spec", .obj [])]) =
      some (.obj [("spec", .obj [("ipFamilyPolicy", .str "PreferDualStack")])]) ∧
    (executeWebhook (unmarshalJSON libSmall)
      { createSpec with Object :=
          { Raw := "\x7b\"spec\":\x7b\"ipFamilyPolicy\":\"PreferDualStack\"\x7d\x7d" } }).result =
      { Allowed := true, Msg := "", PatchOps := [] } :=
  ⟨by decide, by decide, by decide,
   (patched_object_is_fixed_point libSmall createSpec [("spec", .obj [])] []
     (by decide) rfl rfl (by decide) (by decide) (by decide)).1,
   (patched_object_is_fixed_point libSmall createSpec [("spec", .obj [])] []
     (by decide) rfl rfl (by decide) (by decide) (by decide)).2
     "\x7b\"spec\":\x7b\"ipFamilyPolicy\":\"PreferDualStack\"\x7d\x7d"
     [("ipFamilyPolicy", .str "PreferDualStack")]
     [("spec", .obj [("ipFamilyPolicy", .str "PreferDualStack")])]
     (List.Perm.refl _) (List.Perm.refl _) rfl⟩

/-- Counterexample to C5 as stated: the empty object decodes to a Service
without the policy field, the engine emits its patch, and the patch does not
apply to the object, which has no member `spec` for the path to land in; there
is no patched object to run the engine on. -/
theorem patch_fails_without_spec :
    createEmpty.Operation = Create ∧
    libSmall.parse createEmpty.Object.Raw = .ok (.obj []) ∧
    (executeWebhook (unmarshalJSON libSmall) createEmpty).result =
      { Allowed := true, Msg := "",
        PatchOps := [{ Op := "add", Path := "/spec/ipFamilyPolicy", From := "",
                       Value := some "PreferDualStack" }] } ∧
    applyPatch (executeWebhook (unmarshalJSON libSmall) createEmpty).result.PatchOps
      (.obj []) = none :=
  ⟨by decide, rfl, by decide, rfl⟩

/-- Why the names must be exact and single: in `variantDoc` a case variant of
the policy member follows the exact one; the object decodes to a Service
without the policy, the patch applies by replacing the exact member, and the
patched object still decodes to a Service without the policy, the later
`null` overwriting the value written. -/
theorem case_variant_member_re_emits :
    decodeService libSmall variantDoc = .ok { Spec := { IPFamilyPolicy := none } } ∧
    applyPatch [{ Op := "add", Path := "/spec/ipFamilyPolicy", From := "",
                  Value := some "PreferDualStack" }] variantDoc =
      some (.obj [("spec", .obj [("ipFamilyPolicy", .str "PreferDualStack"),
                                 ("IPFAMILYPOLICY", .null)])]) ∧
    decodeService libSmall (.obj [("spec", .obj [("ipFamilyPolicy", .str "PreferDualStack"),
                                                ("IPFAMILYPOLICY", .null)])]) =
      .ok { Spec := { IPFamilyPolicy := none } } :=
  ⟨rfl, rfl, rfl⟩

end Webhook
